import Mathlib

/-!
Verification of the water-leakage telemetry dashboard (src/unnamed/part_000).

The TypeScript source is shallowly embedded as follows:
- JavaScript numbers are modelled by `JSNum`: either NaN, a signed infinity,
  or a finite value represented exactly as a rational.  The claims under
  scrutiny concern admission checks, orderings and window comparisons, none
  of which depend on binary-float rounding, so exact rationals are adequate.
- JSON-like payloads delivered by the realtime database are modelled by
  `JValue`.  A JavaScript object is an association list of string keys whose
  list order is the `Object.entries` iteration order (arrays, which the
  dashboard never receives for the relevant paths, would be objects with
  index keys).
- `undefined` is modelled with `Option` at the use sites (absent fields,
  optional numbers).
-/

/-- A JavaScript number: NaN, a signed infinity (`inf false` is plus infinity,
`inf true` is minus infinity), or a finite value as an exact rational. -/
inductive JSNum where
  | nan
  | inf (neg : Bool)
  | fin (val : ℚ)
deriving DecidableEq

/-- `Number.isFinite`. -/
def JSNum.isFinite : JSNum → Bool
  | .fin _ => true
  | _ => false

/-- `Number.isNaN`. -/
def JSNum.isNaN : JSNum → Bool
  | .nan => true
  | _ => false

/-- JavaScript `<=` on numbers: every comparison with NaN is false. -/
def jsLe : JSNum → JSNum → Bool
  | .fin a, .fin b => decide (a ≤ b)
  | .fin _, .inf s => !s
  | .inf s, .fin _ => s
  | .inf s, .inf t => s || !t
  | _, _ => false

/-- JavaScript `<` on numbers: every comparison with NaN is false. -/
def jsLt : JSNum → JSNum → Bool
  | .fin a, .fin b => decide (a < b)
  | .fin _, .inf s => !s
  | .inf s, .fin _ => s
  | .inf s, .inf t => s && !t
  | _, _ => false

/-- JavaScript `>=` on numbers. -/
def jsGe (a b : JSNum) : Bool := jsLe b a

/-- JavaScript `>` on numbers. -/
def jsGt (a b : JSNum) : Bool := jsLt b a

/-- JavaScript subtraction, restricted to what the dashboard computes with
it (`now - windowSeconds`): finite minus finite is exact, finite minus an
infinity is the opposite infinity, same-signed infinities give NaN. -/
def jsSub : JSNum → JSNum → JSNum
  | .fin a, .fin b => .fin (a - b)
  | .fin _, .inf s => .inf (!s)
  | .inf s, .fin _ => .inf s
  | .inf s, .inf t => if s = t then .nan else .inf s
  | _, _ => .nan

/-- Numeric value of a digit string, most significant first. -/
def natOfDigits (cs : List Char) : ℕ :=
  cs.foldl (fun n c => 10 * n + (c.toNat - 48)) 0

/-- The whitespace characters `parseFloat` skips (the common ASCII ones;
the full JS set also has unicode spaces, which never occur here). -/
def isJsWhitespace (c : Char) : Bool :=
  c = ' ' || c = '\t' || c = '\n' || c = '\r' || c = '\x0b' || c = '\x0c'

/-- Exponent tail of a JS decimal literal: optional sign then digits.
Returns (negative?, magnitude); an empty digit run contributes nothing,
matching `parseFloat`'s longest-valid-prefix rule. -/
def parseExpTail (cs : List Char) : Bool × ℕ :=
  let (neg, cs2) :=
    match cs with
    | '-' :: r => (true, r)
    | '+' :: r => (false, r)
    | _ => (false, cs)
  let ds := cs2.takeWhile Char.isDigit
  if ds.isEmpty then (false, 0) else (neg, natOfDigits ds)

/-- Optional exponent part `e`/`E` of a JS decimal literal. -/
def parseExponent (cs : List Char) : Bool × ℕ :=
  match cs with
  | 'e' :: rest => parseExpTail rest
  | 'E' :: rest => parseExpTail rest
  | _ => (false, 0)

/-- Model of the JavaScript builtin `parseFloat`: skip leading whitespace,
read an optional sign, then the longest prefix that is `Infinity` or a
decimal literal (integer digits, optional fraction, optional exponent).
No valid prefix yields NaN.  The finite result is assembled with a single
`mkRat` so that it is exact. -/
def jsParseFloat (s : String) : JSNum :=
  let cs := s.data.dropWhile isJsWhitespace
  let (neg, cs1) :=
    match cs with
    | '-' :: r => (true, r)
    | '+' :: r => (false, r)
    | _ => (false, cs)
  if cs1.take 8 = "Infinity".data then .inf neg
  else
    let intDigits := cs1.takeWhile Char.isDigit
    let rest1 := cs1.dropWhile Char.isDigit
    let (fracDigits, rest2) :=
      match rest1 with
      | '.' :: r => (r.takeWhile Char.isDigit, r.dropWhile Char.isDigit)
      | _ => ([], rest1)
    if intDigits.isEmpty && fracDigits.isEmpty then .nan
    else
      let (eneg, e) := parseExponent rest2
      let num : ℕ := natOfDigits (intDigits ++ fracDigits) * (if eneg then 1 else 10 ^ e)
      let den : ℕ := 10 ^ fracDigits.length * (if eneg then 10 ^ e else 1)
      .fin (mkRat (if neg then -(num : ℤ) else (num : ℤ)) den)

/-- A JSON-like payload as delivered by the realtime source.  Objects are
association lists in `Object.entries` iteration order. -/
inductive JValue where
  | null
  | bool (b : Bool)
  | num (n : JSNum)
  | str (s : String)
  | obj (fields : List (String × JValue))

/-- First binding of a key in an association list (JS objects have unique
keys, so first = only). -/
def lookupKey {α : Type} : List (String × α) → String → Option α
  | [], _ => none
  | (k1, v) :: rest, key => if k1 = key then some v else lookupKey rest key

/-- Property access `v?.k`: `undefined` (`none`) on non-objects. -/
def getField (v : JValue) (k : String) : Option JValue :=
  match v with
  | .obj fields => lookupKey fields k
  | _ => none

/-- The entries of an object payload; empty for any non-object. -/
def objEntries : JValue → List (String × JValue)
  | .obj fields => fields
  | _ => []

/-- Is the payload an object (`typeof v === "object"` and not null)? -/
def isObj : JValue → Bool
  | .obj _ => true
  | _ => false

/-- JavaScript truthiness of a payload. -/
def truthy : JValue → Bool
  | .null => false
  | .bool b => b
  | .num n =>
    match n with
    | .fin q => decide (q ≠ 0)
    | .inf _ => true
    | .nan => false
  | .str s => !s.isEmpty
  | .obj _ => true

/-- The `SensorData` record type of the source: mandatory display strings
`flow` and `total`, a numeric `timestamp`, optional `r_value`/`threshold`. -/
structure SensorData where
  flow : String
  total : String
  timestamp : JSNum
  r_value : Option JSNum
  threshold : Option JSNum
deriving DecidableEq

/-- `parseOptionalNumber` from `normalizeSensors`: a finite number is kept,
a string is run through `parseFloat` and kept when finite, anything else
(including a missing field) is `undefined`. -/
def parseOptionalNumber : Option JValue → Option JSNum
  | some (.num n) => if n.isFinite then some n else none
  | some (.str s) => if (jsParseFloat s).isFinite then some (jsParseFloat s) else none
  | _ => none

/-- The per-record admission step of `normalizeSensors`: the record is kept
exactly when `flow` and `total` are strings and `timestamp` is a number;
the kept record carries those three fields unchanged plus the coerced
optional fields. -/
def normalizeSensor (v : JValue) : Option SensorData :=
  match getField v "flow", getField v "total", getField v "timestamp" with
  | some (.str flow), some (.str total), some (.num ts) =>
    some { flow := flow, total := total, timestamp := ts,
           r_value := parseOptionalNumber (getField v "r_value"),
           threshold := parseOptionalNumber (getField v "threshold") }
  | _, _, _ => none

/-- `normalizeSensors` (source lines 64-100): non-objects give the empty
set; otherwise each entry is admitted or skipped by `normalizeSensor`.
The source folds with `reduce`, inserting `acc[key] = ...` for admitted
keys; since a JS object's entries have unique keys this is the same as a
`filterMap` that keeps the iteration order. -/
def normalizeSensors (data : JValue) : List (String × SensorData) :=
  match data with
  | .obj fields =>
    fields.filterMap (fun kv => (normalizeSensor kv.2).map (fun s => (kv.1, s)))
  | _ => []

/-- The Boolean mandatory-field check, as the claims state it. -/
def hasMandatoryFields (v : JValue) : Bool :=
  (match getField v "flow" with
   | some (.str _) => true
   | _ => false) &&
  (match getField v "total" with
   | some (.str _) => true
   | _ => false) &&
  (match getField v "timestamp" with
   | some (.num _) => true
   | _ => false)

/-- Characters kept by `parseMetric`'s `replace(/[^\d.-]/g, "")`. -/
def stripMetric (s : String) : String :=
  String.mk (s.data.filter (fun c => c.isDigit || c = '.' || c = '-'))

/-- `parseMetric` (source lines 140-144): empty strings are 0; otherwise
strip everything but digits, dots and minus signs, `parseFloat` the rest
and fall back to 0 unless the result is finite. -/
def parseMetric (value : String) : ℚ :=
  if value.isEmpty then 0
  else
    match jsParseFloat (stripMetric value) with
    | .fin q => q
    | _ => 0

/-- `isLeakageDetected` (source lines 160-170): false when either global
value is `undefined` or non-finite, else the strict comparison
`r_value > threshold`. -/
def isLeakageDetected (globalRValue globalThreshold : Option JSNum) : Bool :=
  match globalRValue, globalThreshold with
  | some r, some t => if r.isFinite && t.isFinite then jsGt r t else false
  | _, _ => false

/-- The `HistoryEntry` type of the source: `SensorData` plus the owning
sensor id (so it inherits the optional `r_value`/`threshold` slots). -/
structure HistoryEntry where
  sensorId : String
  flow : String
  total : String
  timestamp : JSNum
  r_value : Option JSNum
  threshold : Option JSNum
deriving DecidableEq

/-- The per-leaf admission step of `normalizeHistory`: same mandatory-field
rule as for sensors; the pushed record carries only `sensorId`, `flow`,
`total` and `timestamp` (the optional slots stay `undefined`). -/
def checkHistoryLeaf (sensorId : String) (entry : JValue) : Option HistoryEntry :=
  match getField entry "flow", getField entry "total", getField entry "timestamp" with
  | some (.str flow), some (.str total), some (.num ts) =>
    some { sensorId := sensorId, flow := flow, total := total, timestamp := ts,
           r_value := none, threshold := none }
  | _, _, _ => none

/-- Admitted leaves of one sensor's history sub-object, in iteration
order; non-objects (including null) contribute nothing. -/
def sensorLeaves (sensorId : String) (sensorHistory : JValue) : List HistoryEntry :=
  match sensorHistory with
  | .obj leaves => leaves.filterMap (fun kv => checkHistoryLeaf sensorId kv.2)
  | _ => []

/-- The flattening pass of `normalizeHistory` (source lines 107-127):
sensors in iteration order, leaves in iteration order within each. -/
def flattenHistory (data : JValue) : List HistoryEntry :=
  match data with
  | .obj sensors => sensors.foldr (fun kv acc => sensorLeaves kv.1 kv.2 ++ acc) []
  | _ => []

/-- Stable insertion: `e` goes in front of the first element it may
precede.  Used to model `Array.prototype.sort`, which is required to be
stable; for a consistent comparator every stable sort produces the same
output, so the choice of algorithm is immaterial. -/
def insertBy {α : Type} (le : α → α → Bool) (e : α) : List α → List α
  | [] => [e]
  | x :: xs => if le e x then e :: x :: xs else x :: insertBy le e xs

/-- Stable insertion sort (model of JS `sort` with a consistent comparator). -/
def sortBy {α : Type} (le : α → α → Bool) : List α → List α
  | [] => []
  | x :: xs => insertBy le x (sortBy le xs)

/-- The comparator `(a, b) => b.timestamp - a.timestamp` orders `a` before
`b` exactly when `b.timestamp - a.timestamp <= 0`, i.e. descending. -/
def historyLe (a b : HistoryEntry) : Bool := jsGe a.timestamp b.timestamp

/-- `normalizeHistory` (source lines 102-130): flatten the two-level
mapping, then sort by timestamp descending (stably). -/
def normalizeHistory (data : JValue) : List HistoryEntry :=
  sortBy historyLe (flattenHistory data)

/-- The history filter selector (`"today" | "7d" | "all"`). -/
inductive HistoryFilter where
  | today
  | d7
  | all
deriving DecidableEq

/-- `filterMap` of the source's `filteredHistory` memo: window seconds per
selector, `Infinity` for "all". -/
def filterWindow : HistoryFilter → JSNum
  | .today => .fin (24 * 60 * 60)
  | .d7 => .fin (7 * 24 * 60 * 60)
  | .all => .inf false

/-- `filteredHistory` (source lines 664-676): empty history short-circuits;
otherwise keep entries with `timestamp >= now - filterMap[historyFilter]`.
`now` is `Date.now() / 1000`, a finite number. -/
def filteredHistory (history : List HistoryEntry) (f : HistoryFilter) (now : ℚ) : List HistoryEntry :=
  if history.isEmpty then []
  else
    let cutoff := jsSub (.fin now) (filterWindow f)
    history.filter (fun e => jsGe e.timestamp cutoff)

/-- `sensorEntries` (source lines 659-662): the admitted sensor set sorted
by key.  `localeCompare` is modelled as the code-unit lexicographic order;
only the fact that sorting permutes the entries matters below. -/
def sensorEntries (sensors : List (String × SensorData)) : List (String × SensorData) :=
  sortBy (fun a b => !(decide (b.1 < a.1))) sensors

/-- The total-volume fold of the `summary` memo (source lines 695-698):
`reduce((acc, [, sensor]) => acc + parseMetric(sensor.total), 0)`. -/
def summaryTotalVolume (sensors : List (String × SensorData)) : ℚ :=
  (sensorEntries sensors).foldl (fun acc kv => acc + parseMetric kv.2.total) 0

/-- The candidate paths of the sensor-set stream (source line 456). -/
def tryPaths : List String := ["sensorsCurrent", "/"]

/-- Observable state of the sensor-set effect (source lines 455-517):
the index of the most recently established subscription, the list of all
subscriptions ever created by `subscribeToPath` (identified by their path
index, in creation order -- the code never releases one mid-stream), and
the React state cells the callbacks write. -/
structure ResolverState where
  current : ℕ
  subs : List ℕ
  sensors : List (String × SensorData)
  error : Option String
  loading : Bool
deriving DecidableEq

/-- State after the effect body ran `subscribeToPath(0)`. -/
def initResolver : ResolverState :=
  { current := 0, subs := [0], sensors := [], error := none, loading := true }

/-- A value notification with payload `p` (null for a missing snapshot)
delivered to the subscription on candidate `i`.  Truthy payload: normalize
and store, clear the error.  Falsy payload with a candidate remaining:
`subscribeToPath(i+1)` -- a new subscription is created and `unsubscribe`
is overwritten, the old subscription stays active.  Falsy payload on the
last candidate: store the empty set.  The `finally` clause clears the
loading flag on every branch. -/
def handleData (s : ResolverState) (i : ℕ) (p : JValue) : ResolverState :=
  if truthy p then
    { s with sensors := normalizeSensors p, error := none, loading := false }
  else if i + 1 < tryPaths.length then
    { s with current := i + 1, subs := s.subs ++ [i + 1], loading := false }
  else
    { s with sensors := [], loading := false }

/-- A subscription-level error on candidate `i`: fall over to the next
candidate if one remains (again without releasing the old subscription),
else surface the connection error. -/
def handleStreamError (s : ResolverState) (i : ℕ) : ResolverState :=
  if i + 1 < tryPaths.length then
    { s with current := i + 1, subs := s.subs ++ [i + 1] }
  else
    { s with error := some "Koneksi Firebase bermasalah.", loading := false }

/-- The effect cleanup runs `if (unsubscribe) unsubscribe()`; the mutable
`unsubscribe` variable holds only the most recently created subscription,
so that is the only one released. -/
def teardownReleases (s : ResolverState) : List ℕ :=
  match s.subs.getLast? with
  | some i => [i]
  | none => []

/-- Subscriptions still attached after teardown: all but the last one. -/
def activeAfterTeardown (s : ResolverState) : List ℕ :=
  s.subs.dropLast

/-- A chart sample (`ChartDataPoint`): numeric timestamp, parsed flowrate,
derived time label. -/
structure ChartDataPoint where
  timestamp : JSNum
  flowrate : ℚ
  timeLabel : String
deriving DecidableEq

/-- `CHART_WINDOW_SIZE` (source line 47). -/
def CHART_WINDOW_SIZE : ℕ := 100

/-- The `chartData` state: per-sensor rolling series keyed by sensor id. -/
abbrev ChartState : Type := List (String × List ChartDataPoint)

/-- `prev[sensorId] || []`. -/
def bufAt (st : ChartState) (k : String) : List ChartDataPoint :=
  (lookupKey st k).getD []

/-- The spread `{ ...prev, [sensorId]: updated }`: an existing binding is
replaced in place, a new key is appended at the end (JS property order). -/
def setBuf : ChartState → String → List ChartDataPoint → ChartState
  | [], k, v => [(k, v)]
  | kv :: rest, k, v => if kv.1 = k then (k, v) :: rest else kv :: setBuf rest k v

/-- One rolling-buffer insertion (source lines 589-593): append the new
point at the tail, then `shift()` exactly one point off the head if the
length now exceeds the window. -/
def pushChartPoint (buf : List ChartDataPoint) (p : ChartDataPoint) : List ChartDataPoint :=
  let updated := buf ++ [p]
  if CHART_WINDOW_SIZE < updated.length then updated.tail else updated

/-- The `setChartData` updater (source lines 581-599) for one notification. -/
def chartUpdater (st : ChartState) (k : String) (p : ChartDataPoint) : ChartState :=
  setBuf st k (pushChartPoint (bufAt st k) p)

/-- A whole sequence of points pushed into one series. -/
def pushMany (buf : List ChartDataPoint) (ps : List ChartDataPoint) : List ChartDataPoint :=
  ps.foldl pushChartPoint buf

/-- The JSON image of a normalized sensor record, with the optional fields
present exactly when they are not `undefined` (used to state idempotence of
`normalizeSensors`, whose input type is raw JSON). -/
def sensorDataToJValue (s : SensorData) : JValue :=
  .obj ([("flow", JValue.str s.flow), ("total", JValue.str s.total),
      ("timestamp", JValue.num s.timestamp)]
    ++ (match s.r_value with
        | some q => [("r_value", JValue.num q)]
        | none => [])
    ++ (match s.threshold with
        | some q => [("threshold", JValue.num q)]
        | none => []))

/-- The JSON image of a normalized sensor set. -/
def sensorsToJValue (l : List (String × SensorData)) : JValue :=
  .obj (l.map (fun kv => (kv.1, sensorDataToJValue kv.2)))

/-! ### Concrete inputs used in the witness and counterexample checks -/

/-- A well-formed non-empty sensor payload. -/
def samplePayload : JValue :=
  .obj [("sensor1", .obj [("flow", .str "2.5 L/min"), ("total", .str "10.0 L"),
    ("timestamp", .num (.fin 100))])]

/-- A raw sensor set with one admissible entry (numeric `r_value`, string
`threshold` that does not parse) and one entry missing `total`/`timestamp`. -/
def sampleSensorsRaw : JValue :=
  .obj [("sensor1", .obj [("flow", .str "2.5 L/min"), ("total", .str "10.0 L"),
      ("timestamp", .num (.fin 100)), ("r_value", .num (.fin 2)),
      ("threshold", .str "abc")]),
    ("sensor2", .obj [("flow", .str "1 L/min")])]

/-- The record admitted from `sampleSensorsRaw` under key "sensor1". -/
def sampleAdmitted : SensorData :=
  { flow := "2.5 L/min", total := "10.0 L", timestamp := .fin 100,
    r_value := some (.fin 2), threshold := none }

/-- A raw two-level history whose only leaf carries `r_value`/`threshold`
values (they must be discarded by `normalizeHistory`). -/
def sampleHistoryRaw : JValue :=
  .obj [("sensor1", .obj [("rec1", .obj [("flow", .str "1.0 L/min"),
    ("total", .str "2.0 L"), ("timestamp", .num (.fin 50)),
    ("r_value", .num (.fin 3)), ("threshold", .num (.fin 1))])])]

/-- The entry produced from `sampleHistoryRaw`. -/
def sampleHistoryEntry : HistoryEntry :=
  { sensorId := "sensor1", flow := "1.0 L/min", total := "2.0 L",
    timestamp := .fin 50, r_value := none, threshold := none }

/-- A two-sensor raw history with a timestamp tie across sensors. -/
def tieHistoryRaw : JValue :=
  .obj [("a", .obj [("r1", .obj [("flow", .str "1"), ("total", .str "1"),
        ("timestamp", .num (.fin 10))]),
      ("r2", .obj [("flow", .str "2"), ("total", .str "2"),
        ("timestamp", .num (.fin 30))])]),
    ("b", .obj [("r1", .obj [("flow", .str "3"), ("total", .str "3"),
        ("timestamp", .num (.fin 10))])])]

/-- A history entry whose timestamp is NaN: `typeof NaN === "number"`, so
such an entry is admissible, but it fails every `>=` comparison. -/
def nanEntry : HistoryEntry :=
  { sensorId := "sensor1", flow := "0.0 L/min", total := "0.0 L",
    timestamp := .nan, r_value := none, threshold := none }

/-- History entries around a 7-day window for `now = 1000000` (an hour
old, two days old, ten days old, and exactly at the cutoff). -/
def entryRecent : HistoryEntry :=
  { sensorId := "s", flow := "1", total := "1", timestamp := .fin 996400,
    r_value := none, threshold := none }

/-- Two days before `now = 1000000`. -/
def entryTwoDays : HistoryEntry :=
  { sensorId := "s", flow := "2", total := "2", timestamp := .fin 827200,
    r_value := none, threshold := none }

/-- Ten days before `now = 1000000`. -/
def entryTenDays : HistoryEntry :=
  { sensorId := "s", flow := "3", total := "3", timestamp := .fin 136000,
    r_value := none, threshold := none }

/-- Exactly `now - 604800` for `now = 1000000`. -/
def entryCutoff : HistoryEntry :=
  { sensorId := "s", flow := "4", total := "4", timestamp := .fin 395200,
    r_value := none, threshold := none }

/-! ### Generic lemmas about the stable insertion sort -/

theorem insertBy_perm {α : Type} (le : α → α → Bool) (e : α) (l : List α) :
    List.Perm (insertBy le e l) (e :: l) := by
  induction l with
  | nil => exact List.Perm.refl _
  | cons x xs ih =>
    simp only [insertBy]
    split
    · exact List.Perm.refl _
    · exact (ih.cons x).trans (List.Perm.swap e x xs)

theorem sortBy_perm {α : Type} (le : α → α → Bool) (l : List α) :
    List.Perm (sortBy le l) l := by
  induction l with
  | nil => exact List.Perm.refl _
  | cons x xs ih => exact (insertBy_perm le x (sortBy le xs)).trans (ih.cons x)

theorem pairwise_insertBy {α : Type} (le : α → α → Bool) (P : α → Prop)
    (htot : ∀ a b, P a → P b → le a b = true ∨ le b a = true)
    (htrans : ∀ a b c, P a → P b → P c → le a b = true → le b c = true → le a c = true)
    (e : α) (l : List α) (hPe : P e) (hPl : ∀ x ∈ l, P x)
    (hl : l.Pairwise (fun a b => le a b = true)) :
    (insertBy le e l).Pairwise (fun a b => le a b = true) := by
  induction l with
  | nil => simp [insertBy]
  | cons x xs ih =>
    rw [List.pairwise_cons] at hl
    obtain ⟨hx, hxs⟩ := hl
    simp only [insertBy]
    split
    case isTrue hle =>
      refine List.pairwise_cons.mpr ⟨?_, List.pairwise_cons.mpr ⟨hx, hxs⟩⟩
      intro y hy
      rcases List.mem_cons.mp hy with rfl | hy2
      · exact hle
      · exact htrans e x y hPe (hPl x (List.mem_cons_self x xs))
          (hPl y (List.mem_cons_of_mem x hy2)) hle (hx y hy2)
    case isFalse hle =>
      refine List.pairwise_cons.mpr
        ⟨?_, ih (fun z hz => hPl z (List.mem_cons_of_mem x hz)) hxs⟩
      intro y hy
      have hy2 := (insertBy_perm le e xs).mem_iff.mp hy
      rcases List.mem_cons.mp hy2 with rfl | hy3
      · rcases htot x y (hPl x (List.mem_cons_self x xs)) hPe with h1 | h1
        · exact h1
        · exact absurd h1 (by simpa using hle)
      · exact hx y hy3

theorem pairwise_sortBy {α : Type} (le : α → α → Bool) (P : α → Prop)
    (htot : ∀ a b, P a → P b → le a b = true ∨ le b a = true)
    (htrans : ∀ a b c, P a → P b → P c → le a b = true → le b c = true → le a c = true)
    (l : List α) (hPl : ∀ x ∈ l, P x) :
    (sortBy le l).Pairwise (fun a b => le a b = true) := by
  induction l with
  | nil => simp [sortBy]
  | cons x xs ih =>
    exact pairwise_insertBy le P htot htrans x (sortBy le xs)
      (hPl x (List.mem_cons_self x xs))
      (fun z hz => hPl z (List.mem_cons_of_mem x ((sortBy_perm le xs).subset hz)))
      (ih (fun z hz => hPl z (List.mem_cons_of_mem x hz)))

theorem filter_insertBy_pos {α : Type} (le : α → α → Bool) (p : α → Bool) (e : α)
    (hpe : p e = true) (himp : ∀ x, p x = true → le e x = true) (l : List α) :
    (insertBy le e l).filter p = e :: l.filter p := by
  induction l with
  | nil => simp [insertBy, hpe]
  | cons x xs ih =>
    simp only [insertBy]
    split
    case isTrue hle => simp [List.filter_cons, hpe]
    case isFalse hle =>
      have hpx : p x = false := by
        cases hx : p x
        · rfl
        · exact absurd (himp x hx) hle
      simp [List.filter_cons, hpx, ih]

theorem filter_insertBy_neg {α : Type} (le : α → α → Bool) (p : α → Bool) (e : α)
    (hpe : p e = false) (l : List α) :
    (insertBy le e l).filter p = l.filter p := by
  induction l with
  | nil => simp [insertBy, hpe]
  | cons x xs ih =>
    simp only [insertBy]
    split
    · simp [List.filter_cons, hpe]
    · simp [List.filter_cons, ih]

theorem filter_sortBy {α : Type} (le : α → α → Bool) (p : α → Bool)
    (himp : ∀ x y, p x = true → p y = true → le x y = true) (l : List α) :
    (sortBy le l).filter p = l.filter p := by
  induction l with
  | nil => rfl
  | cons x xs ih =>
    simp only [sortBy]
    cases hx : p x with
    | false => simp [filter_insertBy_neg le p x hx, ih, List.filter_cons, hx]
    | true =>
      simp [filter_insertBy_pos le p x hx (fun y hy => himp x y hx hy), ih,
        List.filter_cons, hx]

/-! ### Lemmas about the rolling chart buffer -/

theorem pushChartPoint_eq (buf : List ChartDataPoint) (p : ChartDataPoint)
    (h : buf.length ≤ CHART_WINDOW_SIZE) :
    pushChartPoint buf p = (buf ++ [p]).drop (buf.length + 1 - CHART_WINDOW_SIZE) := by
  simp only [pushChartPoint]
  split
  case isTrue hgt =>
    have hidx : buf.length + 1 - CHART_WINDOW_SIZE = 1 := by
      simp only [List.length_append, List.length_cons, List.length_nil] at hgt
      omega
    rw [hidx, List.drop_one]
  case isFalse hle =>
    have hidx : buf.length + 1 - CHART_WINDOW_SIZE = 0 := by
      simp only [List.length_append, List.length_cons, List.length_nil] at hle
      omega
    rw [hidx, List.drop_zero]

theorem pushMany_eq (ps : List ChartDataPoint) : ∀ buf : List ChartDataPoint,
    buf.length ≤ CHART_WINDOW_SIZE →
    pushMany buf ps = (buf ++ ps).drop (buf.length + ps.length - CHART_WINDOW_SIZE) := by
  induction ps with
  | nil =>
    intro buf h
    simp only [pushMany, List.foldl_nil, List.append_nil, List.length_nil, Nat.add_zero]
    have hidx : buf.length - CHART_WINDOW_SIZE = 0 := by omega
    rw [hidx, List.drop_zero]
  | cons p ps ih =>
    intro buf h
    have hpush := pushChartPoint_eq buf p h
    have hlen : (pushChartPoint buf p).length ≤ CHART_WINDOW_SIZE := by
      rw [hpush]
      simp only [List.length_drop, List.length_append, List.length_cons, List.length_nil]
      omega
    have hstep : pushMany buf (p :: ps) = pushMany (pushChartPoint buf p) ps := by
      simp [pushMany]
    rw [hstep, ih (pushChartPoint buf p) hlen, hpush, List.length_drop]
    have hsplit : (buf ++ [p] ++ ps).drop (buf.length + 1 - CHART_WINDOW_SIZE)
        = ((buf ++ [p]).drop (buf.length + 1 - CHART_WINDOW_SIZE)) ++ ps := by
      rw [List.drop_append_eq_append_drop]
      have hz : buf.length + 1 - CHART_WINDOW_SIZE - (buf ++ [p]).length = 0 := by
        simp only [List.length_append, List.length_cons, List.length_nil]
        omega
      rw [hz, List.drop_zero]
    rw [← hsplit, List.drop_drop]
    have hlist : buf ++ [p] ++ ps = buf ++ p :: ps := by simp
    rw [hlist]
    have hidx : buf.length + 1 - CHART_WINDOW_SIZE +
        ((buf ++ [p]).length - (buf.length + 1 - CHART_WINDOW_SIZE) + ps.length
          - CHART_WINDOW_SIZE)
        = buf.length + (p :: ps).length - CHART_WINDOW_SIZE := by
      simp only [List.length_append, List.length_cons, List.length_nil]
      omega
    rw [hidx]

theorem bufAt_setBuf (st : ChartState) (k k2 : String) (v : List ChartDataPoint) :
    bufAt (setBuf st k v) k2 = if k2 = k then v else bufAt st k2 := by
  induction st with
  | nil =>
    by_cases h2 : k2 = k
    · subst h2
      simp [setBuf, bufAt, lookupKey]
    · have hk : ¬(k = k2) := fun h => h2 h.symm
      simp [setBuf, bufAt, lookupKey, hk, h2]
  | cons kv rest ih =>
    rcases kv with ⟨k1, v1⟩
    by_cases h1 : k1 = k
    · subst h1
      by_cases h2 : k2 = k1
      · subst h2
        simp [setBuf, bufAt, lookupKey]
      · have hk : ¬(k1 = k2) := fun h => h2 h.symm
        simp [setBuf, bufAt, lookupKey, hk, h2]
    · by_cases h2 : k1 = k2
      · subst h2
        simp [setBuf, bufAt, lookupKey, h1]
      · simp only [setBuf]
        rw [if_neg (by simpa using h1)]
        simp only [bufAt, lookupKey]
        rw [if_neg h2, if_neg h2]
        exact ih

/-! ### Lemmas about the validator -/

theorem parseOptionalNumber_finite (w : Option JValue) (q : JSNum)
    (h : parseOptionalNumber w = some q) : q.isFinite = true := by
  unfold parseOptionalNumber at h
  split at h
  · split at h
    · injection h with h
      subst h
      assumption
    · exact Option.noConfusion h
  · split at h
    · injection h with h
      subst h
      assumption
    · exact Option.noConfusion h
  · exact Option.noConfusion h

theorem normalizeSensor_isSome (v : JValue) :
    (normalizeSensor v).isSome = hasMandatoryFields v := by
  unfold normalizeSensor hasMandatoryFields
  rcases getField v "flow" with _ | f <;>
    (try cases f) <;>
  rcases getField v "total" with _ | t <;>
    (try cases t) <;>
  rcases getField v "timestamp" with _ | ts <;>
    (try cases ts) <;> rfl

theorem normalizeSensor_eq_some (v : JValue) (s : SensorData)
    (h : normalizeSensor v = some s) :
    getField v "flow" = some (.str s.flow)
    ∧ getField v "total" = some (.str s.total)
    ∧ getField v "timestamp" = some (.num s.timestamp)
    ∧ s.r_value = parseOptionalNumber (getField v "r_value")
    ∧ s.threshold = parseOptionalNumber (getField v "threshold") := by
  unfold normalizeSensor at h
  split at h
  · injection h with h
    subst h
    refine ⟨by assumption, by assumption, by assumption, rfl, rfl⟩
  · exact Option.noConfusion h

theorem normalizeSensors_keys (fields : List (String × JValue)) :
    (fields.filterMap (fun kv => (normalizeSensor kv.2).map (fun s => (kv.1, s)))).map
        Prod.fst
      = (fields.filter (fun kv => hasMandatoryFields kv.2)).map Prod.fst := by
  induction fields with
  | nil => rfl
  | cons kv rest ih =>
    rw [List.filterMap_cons, List.filter_cons]
    cases hn : normalizeSensor kv.2 with
    | none =>
      have hm : hasMandatoryFields kv.2 = false := by
        rw [← normalizeSensor_isSome, hn]
        rfl
      simp [hm, ih]
    | some s =>
      have hm : hasMandatoryFields kv.2 = true := by
        rw [← normalizeSensor_isSome, hn]
        rfl
      simp [hm, ih]

theorem checkHistoryLeaf_eq_some (sensorId : String) (v : JValue) (e : HistoryEntry)
    (h : checkHistoryLeaf sensorId v = some e) :
    e.sensorId = sensorId ∧ e.r_value = none ∧ e.threshold = none := by
  unfold checkHistoryLeaf at h
  split at h
  · injection h with h
    subst h
    exact ⟨rfl, rfl, rfl⟩
  · exact Option.noConfusion h

theorem mem_flattenHistory (d : JValue) (e : HistoryEntry)
    (h : e ∈ flattenHistory d) :
    ∃ kv ∈ objEntries d, e ∈ sensorLeaves kv.1 kv.2 := by
  cases d with
  | obj sensors =>
    simp only [flattenHistory, objEntries]
    induction sensors with
    | nil => simp [flattenHistory] at h
    | cons kv rest ih =>
      simp only [flattenHistory, List.foldr_cons, List.mem_append] at h
      rcases h with h1 | h1
      · exact ⟨kv, List.mem_cons_self kv rest, h1⟩
      · obtain ⟨kv2, hkv2, hm⟩ := ih h1
        exact ⟨kv2, List.mem_cons_of_mem kv hkv2, hm⟩
  | null => simp [flattenHistory] at h
  | bool b => simp [flattenHistory] at h
  | num n => simp [flattenHistory] at h
  | str s => simp [flattenHistory] at h

/-! ### Order facts about timestamps used by the history sort -/

theorem historyLe_total (a b : HistoryEntry) (ha : a.timestamp.isFinite = true)
    (hb : b.timestamp.isFinite = true) :
    historyLe a b = true ∨ historyLe b a = true := by
  unfold historyLe jsGe
  cases hta : a.timestamp with
  | fin qa =>
    cases htb : b.timestamp with
    | fin qb =>
      simp only [jsLe, decide_eq_true_eq]
      exact (le_total qb qa).imp id id
    | nan => rw [htb] at hb; simp [JSNum.isFinite] at hb
    | inf s => rw [htb] at hb; simp [JSNum.isFinite] at hb
  | nan => rw [hta] at ha; simp [JSNum.isFinite] at ha
  | inf s => rw [hta] at ha; simp [JSNum.isFinite] at ha

theorem historyLe_trans (a b c : HistoryEntry) (ha : a.timestamp.isFinite = true)
    (hb : b.timestamp.isFinite = true) (hc : c.timestamp.isFinite = true)
    (hab : historyLe a b = true) (hbc : historyLe b c = true) :
    historyLe a c = true := by
  unfold historyLe jsGe at hab hbc ⊢
  cases hta : a.timestamp with
  | fin qa =>
    cases htb : b.timestamp with
    | fin qb =>
      cases htc : c.timestamp with
      | fin qc =>
        rw [hta, htb] at hab
        rw [htb, htc] at hbc
        simp only [jsLe, decide_eq_true_eq] at hab hbc ⊢
        exact le_trans hbc hab
      | nan => rw [htc] at hc; simp [JSNum.isFinite] at hc
      | inf s => rw [htc] at hc; simp [JSNum.isFinite] at hc
    | nan => rw [htb] at hb; simp [JSNum.isFinite] at hb
    | inf s => rw [htb] at hb; simp [JSNum.isFinite] at hb
  | nan => rw [hta] at ha; simp [JSNum.isFinite] at ha
  | inf s => rw [hta] at ha; simp [JSNum.isFinite] at ha

theorem filterMap_eq_self {α : Type} (l : List α) (f : α → Option α)
    (h : ∀ x ∈ l, f x = some x) : l.filterMap f = l := by
  induction l with
  | nil => rfl
  | cons x xs ih =>
    rw [List.filterMap_cons, h x (List.mem_cons_self x xs),
      ih (fun z hz => h z (List.mem_cons_of_mem x hz))]

theorem normalizeSensor_roundtrip (s : SensorData)
    (hr : ∀ q, s.r_value = some q → q.isFinite = true)
    (ht : ∀ q, s.threshold = some q → q.isFinite = true) :
    normalizeSensor (sensorDataToJValue s) = some s := by
  rcases s with ⟨flow, total, ts, rv, th⟩
  cases rv with
  | none =>
    cases th with
    | none =>
      simp [normalizeSensor, sensorDataToJValue, getField, lookupKey,
        parseOptionalNumber]
    | some q =>
      have hq : q.isFinite = true := ht q rfl
      simp [normalizeSensor, sensorDataToJValue, getField, lookupKey,
        parseOptionalNumber, hq]
  | some q =>
    have hq : q.isFinite = true := hr q rfl
    cases th with
    | none =>
      simp [normalizeSensor, sensorDataToJValue, getField, lookupKey,
        parseOptionalNumber, hq]
    | some q2 =>
      have hq2 : q2.isFinite = true := ht q2 rfl
      simp [normalizeSensor, sensorDataToJValue, getField, lookupKey,
        parseOptionalNumber, hq, hq2]

/-! ### Claim theorems -/

/-- C1: `normalizeSensors` admits exactly the keys whose record has a
string `flow`, a string `total` and a number `timestamp` (in input order);
absent and non-object inputs give the empty set and the call is total;
every admitted entry carries the three mandatory fields unchanged, and its
`r_value`/`threshold` are the coercion of the corresponding raw fields:
`undefined` stays absent (never zero), a finite number is kept, a
non-finite number is dropped, and a string is `parseFloat`-ed and kept
only when finite. -/
theorem normalizeSensors_admission (d : JValue) (k : String) (s : SensorData) :
    ((normalizeSensors d).map Prod.fst
        = ((objEntries d).filter (fun kv => hasMandatoryFields kv.2)).map Prod.fst)
    ∧ (isObj d = false → normalizeSensors d = [])
    ∧ parseOptionalNumber none = none
    ∧ (∀ q : ℚ, parseOptionalNumber (some (.num (.fin q))) = some (.fin q))
    ∧ (∀ n, n.isFinite = false → parseOptionalNumber (some (.num n)) = none)
    ∧ (∀ sv : String, parseOptionalNumber (some (.str sv))
        = if (jsParseFloat sv).isFinite then some (jsParseFloat sv) else none)
    ∧ ((k, s) ∈ normalizeSensors d →
        (∃ v, (k, v) ∈ objEntries d
          ∧ getField v "flow" = some (.str s.flow)
          ∧ getField v "total" = some (.str s.total)
          ∧ getField v "timestamp" = some (.num s.timestamp)
          ∧ s.r_value = parseOptionalNumber (getField v "r_value")
          ∧ s.threshold = parseOptionalNumber (getField v "threshold"))
        ∧ (∀ q, s.r_value = some q → q.isFinite = true)
        ∧ (∀ q, s.threshold = some q → q.isFinite = true)) := by
  refine ⟨?_, ?_, rfl, fun q => rfl, ?_, fun sv => rfl, ?_⟩
  · cases d with
    | obj fields => exact normalizeSensors_keys fields
    | null => rfl
    | bool b => rfl
    | num n => rfl
    | str s2 => rfl
  · intro h
    cases d with
    | obj fields => simp [isObj] at h
    | null => rfl
    | bool b => rfl
    | num n => rfl
    | str s2 => rfl
  · intro n hn
    cases n with
    | fin q => simp [JSNum.isFinite] at hn
    | nan => rfl
    | inf b => rfl
  · intro hmem
    cases d with
    | obj fields =>
      simp only [normalizeSensors] at hmem
      obtain ⟨kv, hin, heq⟩ := List.mem_filterMap.mp hmem
      obtain ⟨s0, hs0, hps⟩ := Option.map_eq_some'.mp heq
      injection hps with h1 h2
      subst h1
      subst h2
      have hv := normalizeSensor_eq_some kv.2 s0 hs0
      refine ⟨⟨kv.2, hin, hv.1, hv.2.1, hv.2.2.1, hv.2.2.2.1, hv.2.2.2.2⟩, ?_, ?_⟩
      · intro q hq
        exact parseOptionalNumber_finite _ q (by rw [← hv.2.2.2.1]; exact hq)
      · intro q hq
        exact parseOptionalNumber_finite _ q (by rw [← hv.2.2.2.2]; exact hq)
    | null => simp [normalizeSensors] at hmem
    | bool b => simp [normalizeSensors] at hmem
    | num n => simp [normalizeSensors] at hmem
    | str s2 => simp [normalizeSensors] at hmem

/-- C1 witness at a concrete raw payload: "sensor1" (all mandatory fields
present, numeric `r_value`, unparseable string `threshold`) is admitted
with `r_value` kept and `threshold` absent, "sensor2" is skipped. -/
theorem normalizeSensors_admission_witness :
    ("sensor1", sampleAdmitted) ∈ normalizeSensors sampleSensorsRaw
    ∧ ((∃ v, ("sensor1", v) ∈ objEntries sampleSensorsRaw
        ∧ getField v "flow" = some (.str sampleAdmitted.flow)
        ∧ getField v "total" = some (.str sampleAdmitted.total)
        ∧ getField v "timestamp" = some (.num sampleAdmitted.timestamp)
        ∧ sampleAdmitted.r_value = parseOptionalNumber (getField v "r_value")
        ∧ sampleAdmitted.threshold = parseOptionalNumber (getField v "threshold"))
      ∧ (∀ q, sampleAdmitted.r_value = some q → q.isFinite = true)
      ∧ (∀ q, sampleAdmitted.threshold = some q → q.isFinite = true)) :=
  ⟨by decide,
    (normalizeSensors_admission sampleSensorsRaw "sensor1"
      sampleAdmitted).2.2.2.2.2.2 (by decide)⟩

/-- C6: `normalizeHistory` returns a permutation of the flattened admitted
leaves, sorted by timestamp descending, and the sort is stable: for every
timestamp value, the entries carrying it appear in their original
sensor-then-leaf encounter order.  Stated for inputs whose admitted
timestamps are finite, since JavaScript leaves `sort` unspecified when the
comparator `b.timestamp - a.timestamp` is inconsistent (NaN). -/
theorem normalizeHistory_sorted_stable (d : JValue) (t : JSNum)
    (hfin : ∀ e ∈ flattenHistory d, e.timestamp.isFinite = true) :
    List.Perm (normalizeHistory d) (flattenHistory d)
    ∧ (normalizeHistory d).Pairwise (fun a b => jsGe a.timestamp b.timestamp = true)
    ∧ (normalizeHistory d).filter (fun e => decide (e.timestamp = t))
        = (flattenHistory d).filter (fun e => decide (e.timestamp = t)) := by
  refine ⟨sortBy_perm _ _, ?_, ?_⟩
  · exact pairwise_sortBy historyLe (fun e => e.timestamp.isFinite = true)
      historyLe_total historyLe_trans (flattenHistory d) hfin
  · cases t with
    | nan =>
      have h1 : (flattenHistory d).filter (fun e => decide (e.timestamp = .nan)) = [] := by
        rw [List.filter_eq_nil_iff]
        intro e he
        have hf := hfin e he
        cases hts : e.timestamp <;> simp_all [JSNum.isFinite]
      have h2 : (normalizeHistory d).filter (fun e => decide (e.timestamp = .nan)) = [] := by
        rw [List.filter_eq_nil_iff]
        intro e he
        have hf := hfin e ((sortBy_perm historyLe (flattenHistory d)).subset he)
        cases hts : e.timestamp <;> simp_all [JSNum.isFinite]
      rw [h1, h2]
    | fin q =>
      apply filter_sortBy
      intro x y hx hy
      have hx2 : x.timestamp = .fin q := of_decide_eq_true hx
      have hy2 : y.timestamp = .fin q := of_decide_eq_true hy
      simp [historyLe, jsGe, jsLe, hx2, hy2]
    | inf b =>
      apply filter_sortBy
      intro x y hx hy
      have hx2 : x.timestamp = .inf b := of_decide_eq_true hx
      have hy2 : y.timestamp = .inf b := of_decide_eq_true hy
      simp [historyLe, jsGe, jsLe, hx2, hy2]

/-- C6 witness: a concrete two-sensor history with a timestamp tie; the
tied entries keep their encounter order. -/
theorem normalizeHistory_sorted_stable_witness :
    (∀ e ∈ flattenHistory tieHistoryRaw, e.timestamp.isFinite = true)
    ∧ (List.Perm (normalizeHistory tieHistoryRaw) (flattenHistory tieHistoryRaw)
      ∧ (normalizeHistory tieHistoryRaw).Pairwise
          (fun a b => jsGe a.timestamp b.timestamp = true)
      ∧ (normalizeHistory tieHistoryRaw).filter
            (fun e => decide (e.timestamp = .fin 10))
          = (flattenHistory tieHistoryRaw).filter
            (fun e => decide (e.timestamp = .fin 10))) :=
  ⟨by decide, normalizeHistory_sorted_stable tieHistoryRaw (.fin 10) (by decide)⟩

/-- C7 counterexample: an entry whose (admissible) timestamp is NaN fails
`timestamp >= now - Infinity`, so the "all time" selector does not retain
every entry, contrary to the claim. -/
theorem filteredHistory_all_nan_counterexample :
    filteredHistory [nanEntry] .all 0 = []
    ∧ filteredHistory [nanEntry] .all 0 ≠ [nanEntry] := by
  decide

/-- C7 amended: the filtered history retains exactly the entries with
`timestamp >= now - windowSeconds` (inclusive; 86400 seconds for "today",
604800 for "7d"), and the "all time" selector retains exactly the entries
whose timestamp is not NaN (a NaN timestamp fails every comparison and is
dropped under every selector).  With timestamps an hour, two days and ten
days before `now = 1000000`, the 7-day filter excludes only the ten-day
entry, and an entry exactly at the cutoff is retained. -/
theorem filteredHistory_spec (h : List HistoryEntry) (f : HistoryFilter) (now : ℚ) :
    filteredHistory h f now
        = h.filter (fun e => jsGe e.timestamp (jsSub (.fin now) (filterWindow f)))
    ∧ filteredHistory h .all now = h.filter (fun e => !e.timestamp.isNaN)
    ∧ filterWindow .today = .fin 86400
    ∧ filterWindow .d7 = .fin 604800
    ∧ filteredHistory [entryRecent, entryTwoDays, entryTenDays] .d7 1000000
        = [entryRecent, entryTwoDays]
    ∧ filteredHistory [entryCutoff] .d7 1000000 = [entryCutoff] := by
  have hgen : ∀ (hh : List HistoryEntry) (ff : HistoryFilter) (nn : ℚ),
      filteredHistory hh ff nn
        = hh.filter (fun e => jsGe e.timestamp (jsSub (.fin nn) (filterWindow ff))) := by
    intro hh ff nn
    unfold filteredHistory
    split
    next hemp =>
      rw [List.isEmpty_iff.mp hemp]
      rfl
    next => rfl
  have hc1 : jsGe (JSNum.fin 996400) (jsSub (.fin 1000000) (filterWindow .d7)) = true := by
    simp only [jsSub, filterWindow, jsGe, jsLe, decide_eq_true_eq]
    norm_num
  have hc2 : jsGe (JSNum.fin 827200) (jsSub (.fin 1000000) (filterWindow .d7)) = true := by
    simp only [jsSub, filterWindow, jsGe, jsLe, decide_eq_true_eq]
    norm_num
  have hc3 : jsGe (JSNum.fin 136000) (jsSub (.fin 1000000) (filterWindow .d7)) = false := by
    simp only [jsSub, filterWindow, jsGe, jsLe, decide_eq_false_iff_not]
    norm_num
  have hc4 : jsGe (JSNum.fin 395200) (jsSub (.fin 1000000) (filterWindow .d7)) = true := by
    simp only [jsSub, filterWindow, jsGe, jsLe, decide_eq_true_eq]
    norm_num
  refine ⟨hgen h f now, ?_, by norm_num [filterWindow], by norm_num [filterWindow], ?_, ?_⟩
  · rw [hgen h .all now]
    apply List.filter_congr
    intro e he
    cases hts : e.timestamp with
    | fin q => simp [jsSub, filterWindow, jsGe, jsLe, JSNum.isNaN]
    | nan => simp [jsSub, filterWindow, jsGe, jsLe, JSNum.isNaN]
    | inf b => simp [jsSub, filterWindow, jsGe, jsLe, JSNum.isNaN]
  · rw [hgen [entryRecent, entryTwoDays, entryTenDays] .d7 1000000]
    simp [entryRecent, entryTwoDays, entryTenDays, List.filter_cons, hc1, hc2, hc3]
  · rw [hgen [entryCutoff] .d7 1000000]
    simp [entryCutoff, List.filter_cons, hc4]

/-- C8: the displayed total volume is the fold of `parseMetric` over the
(lexicographically displayed) admitted sensors, which equals the sum of
`parseMetric(total)` over all admitted sensors; `parseMetric` strips every
character but digits, dots and minus signs before parsing and yields 0 on
an empty or entirely non-numeric string, never failing.  `mkRat 5 2` is
the exact rational 2.5. -/
theorem summary_total_spec (sensors : List (String × SensorData)) :
    summaryTotalVolume sensors
        = (sensors.map (fun kv => parseMetric kv.2.total)).sum
    ∧ parseMetric "2.50 L" = mkRat 5 2
    ∧ parseMetric "" = 0
    ∧ parseMetric "abc" = 0
    ∧ (∀ sv : String, stripMetric sv = "" → parseMetric sv = 0) := by
  refine ⟨?_, by decide, by decide, by decide, ?_⟩
  · have hfold : ∀ (l : List (String × SensorData)) (a : ℚ),
        l.foldl (fun acc kv => acc + parseMetric kv.2.total) a
          = a + (l.map (fun kv => parseMetric kv.2.total)).sum := by
      intro l
      induction l with
      | nil => intro a; simp
      | cons kv rest ih =>
        intro a
        simp only [List.foldl_cons, List.map_cons, List.sum_cons, ih]
        ring
    unfold summaryTotalVolume sensorEntries
    rw [hfold]
    rw [((sortBy_perm (fun a b => !(decide (b.1 < a.1))) sensors).map
      (fun kv => parseMetric kv.2.total)).sum_eq]
    simp
  · intro sv hsv
    unfold parseMetric
    split
    · rfl
    · rw [hsv]
      decide

/-- C8 witness: a string with no numeric characters strips to the empty
string and parses to 0. -/
theorem summary_total_spec_witness :
    stripMetric "L" = "" ∧ parseMetric "L" = 0 :=
  ⟨by decide, (summary_total_spec []).2.2.2.2 "L" (by decide)⟩

/-- C9: `normalizeSensors` is idempotent: re-normalizing the JSON image of
its own output reproduces the output exactly (the mandatory fields are
verbatim, and the coerced optional fields are always finite-or-absent, so
they coerce to themselves). -/
theorem normalizeSensors_idempotent (d : JValue) :
    normalizeSensors (sensorsToJValue (normalizeSensors d)) = normalizeSensors d := by
  have hstep : ∀ kv ∈ normalizeSensors d,
      normalizeSensor (sensorDataToJValue kv.2) = some kv.2 := by
    intro kv hkv
    cases d with
    | obj fields =>
      simp only [normalizeSensors] at hkv
      obtain ⟨kv0, hin, heq⟩ := List.mem_filterMap.mp hkv
      obtain ⟨s0, hs0, hps⟩ := Option.map_eq_some'.mp heq
      cases hps
      have hv := normalizeSensor_eq_some kv0.2 s0 hs0
      apply normalizeSensor_roundtrip
      · intro q hq
        exact parseOptionalNumber_finite _ q (by rw [← hv.2.2.2.1]; exact hq)
      · intro q hq
        exact parseOptionalNumber_finite _ q (by rw [← hv.2.2.2.2]; exact hq)
    | null => simp [normalizeSensors] at hkv
    | bool b => simp [normalizeSensors] at hkv
    | num n => simp [normalizeSensors] at hkv
    | str s2 => simp [normalizeSensors] at hkv
  show ((normalizeSensors d).map
      (fun kv => (kv.1, sensorDataToJValue kv.2))).filterMap
      (fun kv => (normalizeSensor kv.2).map (fun s => (kv.1, s)))
    = normalizeSensors d
  rw [List.filterMap_map]
  apply filterMap_eq_self
  intro kv hkv
  simp only [Function.comp_apply]
  rw [hstep kv hkv]
  rfl

/-- C10: every entry produced by `normalizeHistory` has `undefined`
`r_value` and `threshold`: any such values on a raw leaf are discarded by
the flattening (only `sensorId`, `flow`, `total`, `timestamp` are set). -/
theorem normalizeHistory_drops_optional (d : JValue) (e : HistoryEntry)
    (h : e ∈ normalizeHistory d) : e.r_value = none ∧ e.threshold = none := by
  have hmem : e ∈ flattenHistory d :=
    (sortBy_perm historyLe (flattenHistory d)).subset h
  obtain ⟨kv, hkv, hleaf⟩ := mem_flattenHistory d e hmem
  unfold sensorLeaves at hleaf
  split at hleaf
  next leaves =>
    obtain ⟨kv2, hkv2, hsome⟩ := List.mem_filterMap.mp hleaf
    have hfields := checkHistoryLeaf_eq_some kv.1 kv2.2 e hsome
    exact ⟨hfields.2.1, hfields.2.2⟩
  next => simp at hleaf

/-- C10 witness: a raw leaf carrying numeric `r_value` and `threshold`
still yields an entry with both fields absent. -/
theorem normalizeHistory_drops_optional_witness :
    sampleHistoryEntry ∈ normalizeHistory sampleHistoryRaw
    ∧ sampleHistoryEntry.r_value = none ∧ sampleHistoryEntry.threshold = none :=
  ⟨by decide,
    normalizeHistory_drops_optional sampleHistoryRaw sampleHistoryEntry (by decide)⟩

/-- C3: `isLeakageDetected` returns false whenever either input is absent
(`undefined`) or non-finite (NaN or an infinity); otherwise it returns the
strict comparison `rValue > threshold` (equality is not a leak).  In
particular `detectLeak(5, 3) = true`, `detectLeak(3, 5) = false`,
`detectLeak(5, 5) = false`. -/
theorem isLeakageDetected_spec :
    (∀ y, isLeakageDetected none y = false)
    ∧ (∀ x, isLeakageDetected x none = false)
    ∧ (∀ y, isLeakageDetected (some .nan) y = false)
    ∧ (∀ x, isLeakageDetected x (some .nan) = false)
    ∧ (∀ b y, isLeakageDetected (some (.inf b)) y = false)
    ∧ (∀ x b, isLeakageDetected x (some (.inf b)) = false)
    ∧ (∀ qx qy : ℚ,
        isLeakageDetected (some (.fin qx)) (some (.fin qy)) = decide (qx > qy))
    ∧ isLeakageDetected (some (.fin 5)) (some (.fin 3)) = true
    ∧ isLeakageDetected (some (.fin 3)) (some (.fin 5)) = false
    ∧ isLeakageDetected (some (.fin 5)) (some (.fin 5)) = false := by
  refine ⟨fun y => rfl, ?_, ?_, ?_, ?_, ?_, fun qx qy => rfl,
    by decide, by decide, by decide⟩
  · intro x
    cases x <;> rfl
  · intro y
    cases y <;> rfl
  · intro x
    cases x with
    | none => rfl
    | some r => cases r <;> rfl
  · intro b y
    cases y <;> rfl
  · intro x b
    cases x with
    | none => rfl
    | some r => cases r <;> rfl

/-- C4: the per-key rolling chart buffer: the updater rewrites exactly the
pushed key's series with `pushChartPoint` and leaves every other key
unchanged; each push appends at the tail and removes exactly one element
from the head when the length would exceed the window `W = 100`; and a
buffer fed `N` points from empty holds exactly the last
`min N W` of them, in push order (for `N > W`, exactly the last `W`). -/
theorem chart_rolling_window (st : ChartState) (k k2 : String) (p : ChartDataPoint)
    (ps : List ChartDataPoint) :
    bufAt (chartUpdater st k p) k2
      = (if k2 = k then pushChartPoint (bufAt st k) p else bufAt st k2)
    ∧ pushChartPoint (bufAt st k) p
      = (if CHART_WINDOW_SIZE < (bufAt st k).length + 1
         then (bufAt st k ++ [p]).tail else bufAt st k ++ [p])
    ∧ pushMany [] ps = ps.drop (ps.length - CHART_WINDOW_SIZE)
    ∧ (pushMany [] ps).length = min ps.length CHART_WINDOW_SIZE := by
  have hmain := pushMany_eq ps [] (by simp [CHART_WINDOW_SIZE])
  refine ⟨bufAt_setBuf st k k2 (pushChartPoint (bufAt st k) p), ?_, ?_, ?_⟩
  · unfold pushChartPoint
    simp [List.length_append]
  · simpa using hmain
  · have h2 : pushMany [] ps = ps.drop (ps.length - CHART_WINDOW_SIZE) := by
      simpa using hmain
    rw [h2, List.length_drop]
    omega

/-- C2 counterexample: the sensor-set resolver has no adoption flag.  After
the primary candidate (index 0) has delivered a non-empty payload, a later
null notification on that same candidate advances the resolver to the
fallback candidate (a new subscription on index 1 is created) and does not
empty the sensor set -- contradicting the claim that an adopted candidate
is terminal and that a later empty notification means "no sensors
currently". -/
theorem adopted_primary_still_falls_back :
    truthy samplePayload = true
    ∧ (handleData initResolver 0 samplePayload).sensors ≠ []
    ∧ (handleData (handleData initResolver 0 samplePayload) 0 .null).current = 1
    ∧ (handleData (handleData initResolver 0 samplePayload) 0 .null).subs = [0, 1]
    ∧ (handleData (handleData initResolver 0 samplePayload) 0 .null).sensors
        = (handleData initResolver 0 samplePayload).sensors := by
  decide

/-- C2 amended: a delivered non-empty payload is terminal for a candidate
only when that candidate is the last of the chain.  On the last candidate
(index 1 of 2) a later null notification empties the sensor set and keeps
both the current candidate and the subscription list unchanged ("no
sensors currently"); on the non-final candidate (index 0) a later null
notification instead advances the resolver to the next candidate, keeping
the previously adopted sensors. -/
theorem adoption_terminal_only_on_last (s : ResolverState) (p : JValue)
    (hp : truthy p = true) :
    ((handleData (handleData s 1 p) 1 .null).sensors = []
      ∧ (handleData (handleData s 1 p) 1 .null).current = (handleData s 1 p).current
      ∧ (handleData (handleData s 1 p) 1 .null).subs = (handleData s 1 p).subs)
    ∧ ((handleData (handleData s 0 p) 0 .null).current = 1
      ∧ (handleData (handleData s 0 p) 0 .null).subs = (handleData s 0 p).subs ++ [1]
      ∧ (handleData (handleData s 0 p) 0 .null).sensors = normalizeSensors p) := by
  simp [handleData, hp, tryPaths, show truthy JValue.null = false from rfl]

/-- Witness for the amended C2 theorem at a concrete adopted payload. -/
theorem adoption_terminal_only_on_last_witness :
    truthy samplePayload = true
    ∧ (((handleData (handleData initResolver 1 samplePayload) 1 .null).sensors = []
      ∧ (handleData (handleData initResolver 1 samplePayload) 1 .null).current
          = (handleData initResolver 1 samplePayload).current
      ∧ (handleData (handleData initResolver 1 samplePayload) 1 .null).subs
          = (handleData initResolver 1 samplePayload).subs)
    ∧ ((handleData (handleData initResolver 0 samplePayload) 0 .null).current = 1
      ∧ (handleData (handleData initResolver 0 samplePayload) 0 .null).subs
          = (handleData initResolver 0 samplePayload).subs ++ [1]
      ∧ (handleData (handleData initResolver 0 samplePayload) 0 .null).sensors
          = normalizeSensors samplePayload)) :=
  ⟨by decide, adoption_terminal_only_on_last initResolver samplePayload (by decide)⟩

/-- C5 fails on the sensor-set effect: when the primary candidate delivers
a null payload, `subscribeToPath(1)` creates the fallback subscription
without releasing the primary one, so two subscriptions are active at
once; the cleanup releases only the most recently created subscription
(the `unsubscribe` variable was overwritten), leaving the primary
subscription attached after teardown. -/
theorem fallback_leaks_primary_subscription :
    (handleData initResolver 0 .null).subs = [0, 1]
    ∧ teardownReleases (handleData initResolver 0 .null) = [1]
    ∧ activeAfterTeardown (handleData initResolver 0 .null) = [0] := by
  decide
